import Mathlib

/-!
Verification development for the KnowledgeBase repository: a local-first,
versioned document index and retrieval system with a React client.

The repository ships the web client (search, Q&A, version history,
settings, editor), the shared TypeScript data model (types.ts) and
documentation.  The MCP backend (version store, search index, diff engine,
retention engine) is not part of the source tree; where a claim depends on
backend behaviour, the corresponding definition is modelled from the
specification and marked as such in its doc comment.

JavaScript strings that are subjected to string operations
(startsWith, toLowerCase, trim, split) are embedded as `List Char`;
strings that are only stored or compared for equality stay `String`.
-/

namespace KnowledgeBase

/-! ## Data model (src/src/types.ts, mirrored in src/unnamed/part_016) -/

/-- The Document row type, from the TypeScript interface `Document`
(part_016 lines 22-38): path, filename, extension, size, modified-at,
optional title, tags, headings, content excerpt, content hash, indexed-at,
version number, is_latest flag and optional owning project id. -/
structure Document where
  id : String
  path : String
  filename : String
  extension : String
  size : Nat
  modified_at : String
  title : Option String
  tags : List String
  headings : List String
  content_excerpt : String
  content_hash : String
  indexed_at : String
  version : Nat
  is_latest : Bool
  project_id : Option String
deriving DecidableEq

/-- Snippet, from the TypeScript interface `Snippet`. -/
structure Snippet where
  text : String
  start_pos : Nat
  end_pos : Nat
  highlighted : String
deriving DecidableEq

/-- SearchResult, from the TypeScript interface `SearchResult`. -/
structure SearchResult where
  document : Document
  score : Int
  snippets : List Snippet
deriving DecidableEq

/-- SearchFilters, from the TypeScript interface `SearchFilters`; a field
that is `none` corresponds to an absent key on the JavaScript object. -/
structure SearchFilters where
  file_types : Option (List String) := none
  folders : Option (List String) := none
  tags : Option (List String) := none
  project_ids : Option (List String) := none
deriving DecidableEq

/-- Number of keys present on the filters object
(`Object.keys(searchFilters).length`). -/
def SearchFilters.keyCount (f : SearchFilters) : Nat :=
  (if f.file_types.isSome then 1 else 0) +
  (if f.folders.isSome then 1 else 0) +
  (if f.tags.isSome then 1 else 0) +
  (if f.project_ids.isSome then 1 else 0)

/-- Citation, from the TypeScript interface `Citation` (part_016 lines
78-87): document_id, filename, path, chunk_id, excerpt, used_version,
latest_version and is_latest. -/
structure Citation where
  document_id : String
  filename : String
  path : String
  chunk_id : Nat
  excerpt : String
  used_version : Nat
  latest_version : Nat
  is_latest : Bool
deriving DecidableEq

/-- Diff line type tag, from the TypeScript union in `DiffLine`. -/
inductive DiffType where
  | added
  | removed
  | unchanged
deriving DecidableEq

/-- DiffLine, from the TypeScript interface `DiffLine`; content is a line
of text, embedded as a character list. -/
structure DiffLine where
  type : DiffType
  line : Nat
  content : List Char
deriving DecidableEq

/-- Diff summary counts, from the `summary` object of `VersionDiff`. -/
structure DiffSummary where
  added : Nat
  removed : Nat
  unchanged : Nat
deriving DecidableEq

/-! ## Character-list string operations (JavaScript string semantics) -/

/-- JavaScript `s.startsWith(p)` on character lists. -/
def startsWithChars (s p : List Char) : Bool :=
  p.isPrefixOf s

/-- JavaScript `s.trim()` on character lists: strip whitespace from both
ends. -/
def trimChars (s : List Char) : List Char :=
  ((s.dropWhile Char.isWhitespace).reverse.dropWhile Char.isWhitespace).reverse

/-- Leading decimal digits of a character list, as a number; `none` when
the list does not start with a digit. -/
def leadingNat (cs : List Char) : Option Nat :=
  let ds := cs.takeWhile Char.isDigit
  if ds.isEmpty then none
  else some (ds.foldl (fun a c => a * 10 + (c.toNat - 48)) 0)

/-- JavaScript `parseInt` on the forms that matter here: optional
whitespace, optional sign, then a leading run of digits; `none` models
`NaN`. -/
def parseIntJS (s : List Char) : Option Int :=
  let t := s.dropWhile Char.isWhitespace
  match t with
  | '-' :: rest => (leadingNat rest).map (fun n => -(n : Int))
  | '+' :: rest => (leadingNat rest).map (fun n => (n : Int))
  | _ => (leadingNat t).map (fun n => (n : Int))

/-! ## Version Store -/

/-- Modelled from the spec: the Version Store (spec section 4.2) is not in
the repository source; only its clients are.  `ingest(path, content,
hash)`: if the existing latest version for the path has the same hash, no
new version is created; otherwise a new row is inserted with version =
previous latest + 1, the previous latest row flips is_latest to false and
the new row is latest.  A ledger is the list of Document rows of one path,
newest first (the order of `list_versions`).  The argument `d` carries the
freshly extracted metadata and content hash of the incoming file. -/
def ingestLedger (rows : List Document) (d : Document) : Bool × List Document :=
  match rows with
  | [] => (true, [{ d with version := 1, is_latest := true }])
  | latest :: rest =>
    if latest.content_hash == d.content_hash then
      (false, latest :: rest)
    else
      (true, { d with version := latest.version + 1, is_latest := true } ::
             { latest with is_latest := false } :: rest)

/-- Modelled from the spec: `delete(path)` removes all versions for that
path (spec section 4.2). -/
def deleteLedger (_rows : List Document) : List Document := []

/-- Ledgers reachable from the empty ledger through the Version Store
operations. -/
inductive ReachableLedger : List Document → Prop where
  | empty : ReachableLedger []
  | ingest (rows : List Document) (d : Document) :
      ReachableLedger rows → ReachableLedger (ingestLedger rows d).2
  | delete (rows : List Document) :
      ReachableLedger rows → ReachableLedger (deleteLedger rows)

/-- The version numbers of a ledger, newest first. -/
def ledgerVersions (rows : List Document) : List Nat :=
  rows.map (fun r => r.version)

/-- Structural ledger invariant: version numbers are N, N-1, ..., 1 from
newest to oldest, the newest row is the latest and every other row is not. -/
def ledgerInv (rows : List Document) : Prop :=
  ledgerVersions rows = (List.range' 1 rows.length).reverse ∧
  (∀ h, rows.head? = some h → h.is_latest = true) ∧
  (∀ r ∈ rows.tail, r.is_latest = false)

/-! ## Diff Engine -/

/-- Modelled from the spec: the Diff Engine (spec section 4.5) is not in
the repository source.  Longest common subsequence of two line lists. -/
def lcs (xs ys : List (List Char)) : List (List Char) :=
  match xs, ys with
  | [], _ => []
  | _, [] => []
  | x :: xs1, y :: ys1 =>
    if x = y then x :: lcs xs1 ys1
    else
      let a := lcs xs1 (y :: ys1)
      let b := lcs (x :: xs1) ys1
      if b.length ≤ a.length then a else b
termination_by xs.length + ys.length

/-- Modelled from the spec: walk both versions along a common
subsequence, emitting removed lines with the line number they held in
version A and added/unchanged lines with their line number in version B
(spec section 4.5). -/
def diffWalk (xs ys common : List (List Char)) (la lb : Nat) : List DiffLine :=
  match common with
  | [] =>
    (List.enumFrom la xs).map (fun p => ⟨DiffType.removed, p.1, p.2⟩) ++
    (List.enumFrom lb ys).map (fun p => ⟨DiffType.added, p.1, p.2⟩)
  | c :: cs =>
    match xs with
    | [] => []
    | x :: xs1 =>
      if x = c then
        match ys with
        | [] => []
        | y :: ys1 =>
          if y = c then
            ⟨DiffType.unchanged, lb, c⟩ :: diffWalk xs1 ys1 cs (la + 1) (lb + 1)
          else
            ⟨DiffType.added, lb, y⟩ :: diffWalk (x :: xs1) ys1 (c :: cs) la (lb + 1)
      else
        ⟨DiffType.removed, la, x⟩ :: diffWalk xs1 ys (c :: cs) (la + 1) lb
termination_by xs.length + ys.length

/-- Split content into lines at newline characters. -/
def splitLinesAux : List Char → List Char → List (List Char)
  | [], acc => [acc.reverse]
  | c :: cs, acc =>
    if c = '\n' then acc.reverse :: splitLinesAux cs []
    else splitLinesAux cs (c :: acc)

/-- Lines of a version content. -/
def splitLines (s : List Char) : List (List Char) :=
  splitLinesAux s []

/-- Line-level diff of two version contents. -/
def diffLines (a b : List Char) : List DiffLine :=
  diffWalk (splitLines a) (splitLines b) (lcs (splitLines a) (splitLines b)) 1 1

/-- Summary counts over diff lines. -/
def summarize (ls : List DiffLine) : DiffSummary :=
  ⟨ls.countP (fun l => l.type == DiffType.added),
   ls.countP (fun l => l.type == DiffType.removed),
   ls.countP (fun l => l.type == DiffType.unchanged)⟩

/-- Result of `compare_versions`: diff lines plus summary. -/
structure VersionDiffResult where
  lines : List DiffLine
  summary : DiffSummary
deriving DecidableEq

/-- Version contents held by the store, keyed by version number. -/
def getVersionContent (store : List (Nat × List Char)) (v : Nat) : Option (List Char) :=
  (store.find? (fun p => p.1 == v)).map (fun p => p.2)

/-- Modelled from the spec: `compare_versions(path, version_a, version_b)`
fails with NOT_FOUND unless both versions exist, and otherwise diffs their
contents (spec section 4.5).  The store argument stands for the version
contents recorded for the path. -/
def compareVersionsModel (store : List (Nat × List Char)) (versionA versionB : Nat) :
    Except String VersionDiffResult :=
  match getVersionContent store versionA, getVersionContent store versionB with
  | some ca, some cb =>
    let ls := diffLines ca cb
    Except.ok ⟨ls, summarize ls⟩
  | _, _ => Except.error "NOT_FOUND"

/-- A compare_versions request as built by the version history view. -/
structure CompareVersionsRequest where
  tool : String
  path : String
  version_a : Nat
  version_b : Nat
deriving DecidableEq

/-- The compareVersions click handler of the version history interface
(part_006 lines 77-117 and part_007 lines 60-100): selecting equal
versions yields the error message and no request; otherwise the
compare_versions request is issued. -/
def compareVersionsSubmit (path : String) (versionA versionB : Nat) :
    Except String CompareVersionsRequest :=
  if versionA = versionB then
    Except.error "Please select different versions to compare"
  else
    Except.ok ⟨"compare_versions", path, versionA, versionB⟩

/-! ## Search -/

/-- Per-interface search state, from `SearchState` in
src/src/contexts/StatePersistenceContext.tsx. -/
structure SearchState where
  query : String
  results : List SearchResult
  showFilters : Bool
  filters : SearchFilters
  includeHistorical : Bool
  selectedResult : Option SearchResult
  documentContent : String

/-- The default search state of a fresh session
(StatePersistenceContext.tsx lines 79-87). -/
def defaultSearchState : SearchState :=
  { query := ""
  , results := []
  , showFilters := false
  , filters := {}
  , includeHistorical := false
  , selectedResult := none
  , documentContent := "" }

/-- A search_notes request as built by the search interfaces. -/
structure SearchNotesRequest where
  tool : String
  query : List Char
  limit : Nat
  offset : Nat
  include_historical : Bool
  filters : Option SearchFilters
deriving DecidableEq

/-- The searchNotes handler of the search interfaces (part_011 lines
61-103 and the SearchInterface in src/src/components/DocumentViewerModal.tsx
lines 166-208, which build identical requests): an all-whitespace query is
ignored, otherwise the request carries the trimmed query, limit 20, offset
0, the include_historical flag, and the filters object only when it has at
least one key. -/
def searchNotesRequest (query : List Char) (filters : SearchFilters)
    (includeHistorical : Bool) : Option SearchNotesRequest :=
  if (trimChars query).isEmpty then none
  else
    some { tool := "search_notes"
         , query := trimChars query
         , limit := 20
         , offset := 0
         , include_historical := includeHistorical
         , filters := if 0 < filters.keyCount then some filters else none }

/-- Modelled from the spec: Search Index eligibility (spec section 4.3);
the backend index is not in the repository source.  When
include_historical is false only documents with is_latest = true are
eligible; when true both latest and superseded versions are searchable.
`matchQ` stands for the lexical query-and-filters match. -/
def searchNotesModel (docs : List Document) (matchQ : Document → Bool)
    (includeHistorical : Bool) : List Document :=
  docs.filter (fun d => (includeHistorical || d.is_latest) && matchQ d)

/-! ## Retrieval and citation resolution -/

/-- Modelled from the spec: the Retrieval and Citation Resolver (spec
section 4.4) is not in the repository source.  For each selected chunk it
looks up the latest version of the source document and computes
is_latest = (chunk.version == latest.version), surfacing both the cited
and the latest version numbers. -/
def resolveCitation (document_id filename path : String) (chunk_id : Nat)
    (excerpt : String) (chunkVersion latestVersion : Nat) : Citation :=
  { document_id := document_id
  , filename := filename
  , path := path
  , chunk_id := chunk_id
  , excerpt := excerpt
  , used_version := chunkVersion
  , latest_version := latestVersion
  , is_latest := chunkVersion == latestVersion }

/-- JavaScript truthiness of an optional number (`undefined` and `0` are
falsy). -/
def truthyNat (o : Option Nat) : Bool :=
  match o with
  | some n => n != 0
  | none => false

/-- What the version block of CitationPreview displays. -/
structure CitationVersionView where
  usedBadge : Nat
  showsOutdated : Bool
  shownLatest : Option Nat
  showsLatestTag : Bool
deriving DecidableEq

/-- The version information block of CitationPreview (part_010 lines
202-233): rendered only when showVersionInfo and usedVersion are truthy;
when isLatest is falsy and latestVersion truthy it shows the latest
version badge and the Outdated marker; when isLatest is true it shows the
Latest tag. -/
def renderVersionInfo (showVersionInfo : Bool) (usedVersion latestVersion : Option Nat)
    (isLatest : Option Bool) : Option CitationVersionView :=
  if showVersionInfo && truthyNat usedVersion then
    some { usedBadge := usedVersion.getD 0
         , showsOutdated := !(isLatest == some true) && truthyNat latestVersion
         , shownLatest :=
             if !(isLatest == some true) && truthyNat latestVersion then latestVersion
             else none
         , showsLatestTag := isLatest == some true }
  else none

/-- The two item kinds CitationPreview can display. -/
inductive PreviewKind where
  | citationKind
  | searchResultKind
deriving DecidableEq

/-- The `document` value CitationPreview derives (part_010 lines 60-80):
for a citation a pseudo-document whose version is the used version, for a
search result the result document; here restricted to the version field. -/
def previewDocumentVersion (kind : PreviewKind) (citation : Option Citation)
    (searchResult : Option SearchResult) : Option Nat :=
  match kind with
  | .citationKind => citation.map (fun c => c.used_version)
  | .searchResultKind => searchResult.map (fun r => r.document.version)

/-- The derived usedVersion (part_010 lines 87-88):
`type === 'citation' ? citation?.used_version : document?.version`. -/
def derivedUsedVersion (kind : PreviewKind) (citation : Option Citation)
    (searchResult : Option SearchResult) : Option Nat :=
  match kind with
  | .citationKind => citation.map (fun c => c.used_version)
  | .searchResultKind => previewDocumentVersion .searchResultKind citation searchResult

/-- The derived latestVersion (part_010 lines 89-90):
`type === 'citation' ? citation?.latest_version : document?.version`. -/
def derivedLatestVersion (kind : PreviewKind) (citation : Option Citation)
    (searchResult : Option SearchResult) : Option Nat :=
  match kind with
  | .citationKind => citation.map (fun c => c.latest_version)
  | .searchResultKind => previewDocumentVersion .searchResultKind citation searchResult

/-! ## Retention and purge -/

/-- Retention policy kinds (spec section 3, RetentionPolicy). -/
inductive PolicyType where
  | all
  | lastNVersions
  | lastNDays
deriving DecidableEq

/-- Modelled from the spec: the Retention Engine configuration as the
backend holds it; the backend is not in the repository source. -/
structure RetentionPolicyConfig where
  policy_type : PolicyType
  value : Nat
deriving DecidableEq

/-- Modelled from the spec: whether a row of a ledger (indexed from the
newest row at position 0) is kept by the policy (spec section 4.6):
`all` keeps everything; `last_n_versions` keeps the N most recent rows and
always the latest; `last_n_days` keeps rows inside the window and always
the latest.  `inWindow` stands for the indexed-at date test against the
day window. -/
def keepRow (policy : RetentionPolicyConfig) (inWindow : Document → Bool)
    (idx : Nat) (d : Document) : Bool :=
  match policy.policy_type with
  | .all => true
  | .lastNVersions => decide (idx < policy.value) || d.is_latest
  | .lastNDays => inWindow d || d.is_latest

/-- Modelled from the spec: candidate versions for deletion (the rows the
policy does not keep). -/
def evaluateLedger (policy : RetentionPolicyConfig) (inWindow : Document → Bool)
    (rows : List Document) : List Document :=
  ((rows.enum).filter (fun p => !keepRow policy inWindow p.1 p.2)).map (fun p => p.2)

/-- Modelled from the spec: the rows that survive a purge. -/
def keepLedger (policy : RetentionPolicyConfig) (inWindow : Document → Bool)
    (rows : List Document) : List Document :=
  ((rows.enum).filter (fun p => keepRow policy inWindow p.1 p.2)).map (fun p => p.2)

/-- Outcome of purge_history: the candidate selection, the reported
counts, and the store after the call. -/
structure PurgeOutcome where
  candidates : List Document
  versions_deleted : Nat
  space_freed_bytes : Nat
  store : List (String × List Document)

/-- Modelled from the spec: `purge(dry_run)` evaluates the policy into a
candidate set, reports versions_deleted and space_freed_bytes from that
set, and deletes the candidate rows only when dry_run is false (spec
section 4.6). -/
def purgeHistoryModel (policy : RetentionPolicyConfig) (inWindow : Document → Bool)
    (store : List (String × List Document)) (dry_run : Bool) : PurgeOutcome :=
  let cands := store.flatMap (fun pr => evaluateLedger policy inWindow pr.2)
  { candidates := cands
  , versions_deleted := cands.length
  , space_freed_bytes := (cands.map (fun d => d.size)).sum
  , store :=
      if dry_run then store
      else store.map (fun pr => (pr.1, keepLedger policy inWindow pr.2)) }

/-- A purge_history request as built by the settings interface. -/
structure PurgeHistoryRequest where
  tool : String
  dry_run : Bool
deriving DecidableEq

/-- The purgeHistory handler of the settings interface (part_015 lines
106-145): the request carries only the tool name and the dry_run flag. -/
def purgeHistoryRequest (dryRun : Bool) : PurgeHistoryRequest :=
  ⟨"purge_history", dryRun⟩

/-- The client-side retention policy state, from the settings slice of
StatePersistenceContext.tsx and its use in part_015. -/
structure RetentionPolicyState where
  policy_type : String
  value : Int
  description : String
deriving DecidableEq

/-- The default retention policy of a fresh session
(StatePersistenceContext.tsx lines 116-120). -/
def defaultRetentionPolicy : RetentionPolicyState :=
  { policy_type := "all", value := 0, description := "Keep all versions (default)" }

/-- The values offered by the retention policy dropdown (part_015 lines
191-203). -/
def retentionPolicyOptionValues : List String :=
  ["all", "last_n_versions", "last_n_days"]

/-- The dropdown onChange handler for the policy type (part_015 lines
406-414): it replaces policy_type and touches nothing else. -/
def onRetentionPolicyTypeChange (v : String) (rp : RetentionPolicyState) :
    RetentionPolicyState :=
  { rp with policy_type := v }

/-- The number input onChange handler for the policy value (part_015
lines 429-436): `parseInt(e.target.value) || 1`. -/
def onRetentionValueChange (s : List Char) (rp : RetentionPolicyState) :
    RetentionPolicyState :=
  { rp with value :=
      match parseIntJS s with
      | none => 1
      | some n => if n = 0 then 1 else n }

/-! ## Editor autosave -/

/-- A save_note request as built by the editor. -/
structure SaveNoteRequest where
  tool : String
  path : String
  content : String
  project_id : Option String
deriving DecidableEq

/-- The autosave function of the editor (part_009 lines 203-243): it
requires a path, skips when not dirty and not forced, and otherwise
issues exactly one save_note request with the path, content and project
id. -/
def autosaveRequest (currentPath : Option String) (dirty isImmediate : Bool)
    (content : String) (projectId : Option String) : Option SaveNoteRequest :=
  match currentPath with
  | none => none
  | some p =>
    if !dirty && !isImmediate then none
    else some { tool := "save_note", path := p, content := content, project_id := projectId }

/-! ## Editor HTML sanitizer -/

/-- An HTML node as the DOM presents it to the sanitizer: a text node, or
an element with a tag name, attributes and children. -/
inductive HNode where
  | text (s : List Char) : HNode
  | elem (tag : List Char) (attrs : List (List Char × List Char)) (children : List HNode) : HNode

/-- Whether a tag is removed outright by sanitize
(`tag === 'script' || tag === 'style'` after lowercasing). -/
def bannedTag (tag : List Char) : Bool :=
  tag.map Char.toLower == "script".data || tag.map Char.toLower == "style".data

/-- The attribute pass of sanitize (part_009 lines 390-401): attributes
whose lowercased name starts with `on` are removed; an href attribute
whose trimmed value starts with `javascript:` is replaced by `#`. -/
def cleanAttr (attr : List Char × List Char) : Option (List Char × List Char) :=
  if startsWithChars (attr.1.map Char.toLower) "on".data then none
  else if attr.1.map Char.toLower = "href".data ∧
          startsWithChars (trimChars attr.2) "javascript:".data then
    some (attr.1, "#".data)
  else some attr

/-- All attributes of an element after the attribute pass. -/
def cleanAttrs (attrs : List (List Char × List Char)) : List (List Char × List Char) :=
  attrs.filterMap cleanAttr

mutual

/-- The sanitize function of the editor (part_009 lines 370-405), on one
node: script and style elements are removed with their subtree, other
elements keep their tag, pass their attributes through the attribute pass
and sanitize their children, and text is kept. -/
def sanitizeNode : HNode → List HNode
  | .text s => [.text s]
  | .elem tag attrs children =>
    if bannedTag tag then []
    else [.elem tag (cleanAttrs attrs) (sanitizeNodes children)]

/-- sanitize on a node list (the children of the parsed body). -/
def sanitizeNodes : List HNode → List HNode
  | [] => []
  | n :: ns => sanitizeNode n ++ sanitizeNodes ns

end

/-- Whether one attribute is harmless: its name does not start with `on`
(case-insensitively) and, if it is an href, its trimmed value does not
start with `javascript:`. -/
def attrSafe (attr : List Char × List Char) : Bool :=
  !startsWithChars (attr.1.map Char.toLower) "on".data &&
  (!(attr.1.map Char.toLower == "href".data) ||
   !startsWithChars (trimChars attr.2) "javascript:".data)

mutual

/-- Whether a node tree is harmless: no script or style element and every
attribute harmless, recursively. -/
def nodeSafe : HNode → Bool
  | .text _ => true
  | .elem tag attrs children =>
    !bannedTag tag && attrs.all attrSafe && nodesSafe children

/-- nodeSafe on a node list. -/
def nodesSafe : List HNode → Bool
  | [] => true
  | n :: ns => nodeSafe n && nodesSafe ns

end

/-- The rendered preview of the editor (part_009 lines 407-410):
`sanitize(marked.parse(content))` — whatever the Markdown renderer
produces is passed through sanitize before display.  The Markdown
renderer is external and stands here as an arbitrary function. -/
def rendered (parseMarkdown : String → List HNode) (content : String) : List HNode :=
  sanitizeNodes (parseMarkdown content)

/-! ## Concrete fixtures used by witnesses -/

/-- Metadata of the first ingest of the scenario file. -/
def dockerDocA : Document :=
  { id := "doc-a", path := "notes/docker.md", filename := "docker.md"
  , extension := "md", size := 38, modified_at := "2025-01-01T10:00:00Z"
  , title := some "Docker", tags := [], headings := ["Docker"]
  , content_excerpt := "# Docker", content_hash := "hash-one"
  , indexed_at := "2025-01-01T10:00:00Z", version := 0, is_latest := false
  , project_id := none }

/-- Metadata of the second ingest of the scenario file, with changed
content. -/
def dockerDocB : Document :=
  { dockerDocA with
    id := "doc-b", size := 44, content_hash := "hash-two",
    indexed_at := "2025-01-02T10:00:00Z" }

/-- Metadata of a third ingest, changed again. -/
def dockerDocC : Document :=
  { dockerDocA with
    id := "doc-c", size := 50, content_hash := "hash-three",
    indexed_at := "2025-01-03T10:00:00Z" }

/-- The ledger after ingesting dockerDocA then dockerDocB. -/
def dockerLedger2 : List Document :=
  (ingestLedger (ingestLedger [] dockerDocA).2 dockerDocB).2

/-- The ledger after ingesting dockerDocA, dockerDocB, dockerDocC. -/
def dockerLedger3 : List Document :=
  (ingestLedger dockerLedger2 dockerDocC).2

/-- The content of the first scenario version. -/
def dockerContent : List Char :=
  "# Docker\nUse volumes for persistence.".data

/-- A concrete one-version content store for the diff witness. -/
def dockerStore : List (Nat × List Char) :=
  [(1, dockerContent)]

/-- The latest row of the two-ingest ledger, written out. -/
def rowV2 : Document :=
  { dockerDocB with version := 2, is_latest := true }

/-- The newest row of the three-ingest ledger, written out. -/
def rowV3 : Document :=
  { dockerDocC with version := 3, is_latest := true }

/-- The middle row of the three-ingest ledger, written out. -/
def rowV2Old : Document :=
  { dockerDocB with version := 2, is_latest := false }

/-- The oldest row of the three-ingest ledger, written out. -/
def rowV1Old : Document :=
  { dockerDocA with version := 1, is_latest := false }

/-- The concrete search request of the paging witness. -/
def dockerSearchRequest : SearchNotesRequest :=
  { tool := "search_notes", query := "docker".data, limit := 20, offset := 0
  , include_historical := false, filters := none }

/-- The concrete save_note request of the autosave witness. -/
def autosaveReq : SaveNoteRequest :=
  { tool := "save_note", path := "/notes/a.md", content := "# A", project_id := none }

/-- Sample parsed nodes for the sanitizer witness: a script element and an
anchor with an event handler and a javascript href. -/
def sampleNodes : List HNode :=
  [ HNode.elem "script".data [] []
  , HNode.elem "A".data
      [("onClick".data, "x".data), ("href".data, "javascript:void(0)".data)]
      [HNode.text "hi".data] ]

/-! ## Helper lemmas -/

/-- The empty ledger satisfies the structural invariant. -/
theorem ledgerInv_nil : ledgerInv [] := by
  refine ⟨by simp [ledgerVersions], ?_, ?_⟩
  · intro h hh; simp at hh
  · intro r hr; simp at hr

/-- Reversing the range 1..(n+1) peels off the top element. -/
theorem range'_one_reverse_succ (n : Nat) :
    (List.range' 1 (n + 1)).reverse = (n + 1) :: (List.range' 1 n).reverse := by
  rw [List.range'_concat, List.reverse_concat]
  have h1 : 1 + 1 * n = n + 1 := by omega
  rw [h1]

/-- Ingest preserves the structural ledger invariant. -/
theorem ledgerInv_ingest (rows : List Document) (d : Document) (h : ledgerInv rows) :
    ledgerInv (ingestLedger rows d).2 := by
  rcases rows with _ | ⟨latest, rest⟩
  · refine ⟨?_, ?_, ?_⟩
    · simp [ingestLedger, ledgerVersions]
    · intro h0 hh
      simp [ingestLedger] at hh
      rw [← hh]
    · intro r hr
      simp [ingestLedger] at hr
  · obtain ⟨hver, hhead, htail⟩ := h
    by_cases hh : latest.content_hash == d.content_hash
    · refine ⟨?_, ?_, ?_⟩ <;> simp only [ingestLedger, hh, if_true]
      · exact hver
      · exact hhead
      · exact htail
    · have hlen : (latest :: rest).length = rest.length + 1 := rfl
      rw [ledgerVersions, List.map_cons, hlen, range'_one_reverse_succ] at hver
      have hv1 : latest.version = rest.length + 1 := (List.cons.injEq _ _ _ _ ▸ hver).1
      have hv2 : rest.map (fun r => r.version) = (List.range' 1 rest.length).reverse :=
        (List.cons.injEq _ _ _ _ ▸ hver).2
      refine ⟨?_, ?_, ?_⟩
      · simp only [ingestLedger, hh, if_false, Bool.false_eq_true]
        show ledgerVersions _ = _
        rw [ledgerVersions, List.map_cons, List.map_cons]
        have hlen2 : ({ d with version := latest.version + 1, is_latest := true } ::
            { latest with is_latest := false } :: rest).length = rest.length + 1 + 1 := rfl
        rw [hlen2, range'_one_reverse_succ, range'_one_reverse_succ]
        simp only [List.cons.injEq]
        refine ⟨by simp [hv1], by simp [hv1], hv2⟩
      · intro h0 hh0
        simp only [ingestLedger, hh, if_false, Bool.false_eq_true, List.head?] at hh0
        cases hh0
        rfl
      · intro r hr
        simp only [ingestLedger, hh, if_false, Bool.false_eq_true, List.tail] at hr
        rcases List.mem_cons.mp hr with h1 | h2
        · rw [h1]
        · exact htail r h2

/-- Every reachable ledger satisfies the structural invariant. -/
theorem ledger_reachable_inv (rows : List Document) (h : ReachableLedger rows) :
    ledgerInv rows := by
  induction h with
  | empty => exact ledgerInv_nil
  | ingest rows d _ ih => exact ledgerInv_ingest rows d ih
  | delete rows _ _ => simpa [deleteLedger] using ledgerInv_nil

/-- The longest common subsequence of a list with itself is the list. -/
theorem lcs_self (l : List (List Char)) : lcs l l = l := by
  induction l with
  | nil => simp [lcs]
  | cons x xs ih => simp [lcs, ih]

/-- Walking a diff of a list against itself along itself yields only
unchanged lines, numbered from the starting line of version B. -/
theorem diffWalk_self (l : List (List Char)) : ∀ la lb,
    diffWalk l l l la lb =
      (List.enumFrom lb l).map (fun p => ⟨DiffType.unchanged, p.1, p.2⟩) := by
  induction l with
  | nil => intro la lb; simp [diffWalk]
  | cons x xs ih =>
    intro la lb
    rw [diffWalk]
    simp [ih, List.enumFrom]

/-- Summary of a self-diff walk: nothing added, nothing removed, every
line unchanged. -/
theorem summarize_diffWalk_self (l : List (List Char)) (la lb : Nat) :
    summarize (diffWalk l l l la lb) = ⟨0, 0, l.length⟩ := by
  rw [diffWalk_self l la lb, summarize]
  simp only [DiffSummary.mk.injEq]
  refine ⟨?_, ?_, ?_⟩
  · rw [List.countP_map, List.countP_eq_zero]
    intro a _
    simp
  · rw [List.countP_map, List.countP_eq_zero]
    intro a _
    simp
  · rw [List.countP_map]
    have : ∀ a ∈ List.enumFrom lb l,
        ((fun x => x.type == DiffType.unchanged) ∘
          (fun p : Nat × List Char => (⟨DiffType.unchanged, p.1, p.2⟩ : DiffLine))) a = true := by
      intro a _
      simp
    rw [List.countP_eq_length.mpr this, List.enumFrom_length]

/-! ## Claims -/

/-- C1: for every path, the version numbers across its Document rows are
exactly 1..N with no gaps and exactly one row has is_latest = true, and a
Document row carries exactly the fields declared by the Document type
(id, path, filename, extension, size, modified_at, title, tags, headings,
content_excerpt, content_hash, indexed_at, version, is_latest,
project_id). -/
theorem c1_version_ledger_invariant (rows : List Document) (d : Document)
    (hreach : ReachableLedger rows) (hne : rows ≠ []) :
    (ledgerVersions rows).reverse = List.range' 1 rows.length ∧
    rows.countP (fun r => r.is_latest) = 1 ∧
    d = Document.mk d.id d.path d.filename d.extension d.size d.modified_at d.title
      d.tags d.headings d.content_excerpt d.content_hash d.indexed_at d.version
      d.is_latest d.project_id := by
  obtain ⟨hver, hhead, htail⟩ := ledger_reachable_inv rows hreach
  refine ⟨?_, ?_, rfl⟩
  · rw [hver, List.reverse_reverse]
  · rcases rows with _ | ⟨h0, t⟩
    · exact absurd rfl hne
    · have h1 : h0.is_latest = true := hhead h0 rfl
      have h2 : t.countP (fun r => r.is_latest) = 0 := by
        rw [List.countP_eq_zero]
        intro a ha
        simp [htail a ha]
      rw [List.countP_cons, h2, h1]
      simp

/-- Witness for C1 at the ledger obtained by ingesting the scenario file
twice with changed content. -/
theorem c1_version_ledger_invariant_witness :
    (ledgerVersions dockerLedger2).reverse = List.range' 1 dockerLedger2.length ∧
    dockerLedger2.countP (fun r => r.is_latest) = 1 ∧
    dockerDocA = Document.mk dockerDocA.id dockerDocA.path dockerDocA.filename
      dockerDocA.extension dockerDocA.size dockerDocA.modified_at dockerDocA.title
      dockerDocA.tags dockerDocA.headings dockerDocA.content_excerpt
      dockerDocA.content_hash dockerDocA.indexed_at dockerDocA.version
      dockerDocA.is_latest dockerDocA.project_id :=
  c1_version_ledger_invariant dockerLedger2 dockerDocA
    (ReachableLedger.ingest _ dockerDocB
      (ReachableLedger.ingest _ dockerDocA ReachableLedger.empty))
    (by decide)

/-- C2 counterexample: the version history interface refuses to issue a
compare_versions request when the two selected versions are equal; it
reports an error instead, so the compare operation is not invocable with
version_a equal to version_b. -/
theorem c2_equal_versions_rejected :
    compareVersionsSubmit "notes/docker.md" 1 1 =
      Except.error "Please select different versions to compare" := rfl

/-- C2 (amended): for every version that exists for a path, the diff
engine applied to that version and itself yields zero added lines, zero
removed lines and summary.unchanged equal to the line count of that
version content; however the compare interface rejects version_a equal to
version_b with an error and issues no request, so the round trip holds of
the engine, not of the client operation. -/
theorem c2_diff_self_round_trip (store : List (Nat × List Char)) (v : Nat)
    (c : List Char) (path : String)
    (hv : getVersionContent store v = some c) :
    compareVersionsModel store v v =
      Except.ok ⟨diffLines c c, ⟨0, 0, (splitLines c).length⟩⟩ ∧
    compareVersionsSubmit path v v =
      Except.error "Please select different versions to compare" := by
  constructor
  · have hsum : summarize (diffLines c c) = ⟨0, 0, (splitLines c).length⟩ := by
      rw [diffLines, lcs_self]
      exact summarize_diffWalk_self (splitLines c) 1 1
    rw [compareVersionsModel, hv]
    simp [hsum]
  · simp [compareVersionsSubmit]

/-- Witness for C2 at the one-version scenario store. -/
theorem c2_diff_self_round_trip_witness :
    (compareVersionsModel dockerStore 1 1 =
      Except.ok ⟨diffLines dockerContent dockerContent,
        ⟨0, 0, (splitLines dockerContent).length⟩⟩) ∧
    compareVersionsSubmit "notes/docker.md" 1 1 =
      Except.error "Please select different versions to compare" :=
  c2_diff_self_round_trip dockerStore 1 dockerContent "notes/docker.md" (by decide)

/-- A row flagged is_latest is kept by every retention policy. -/
theorem keepRow_of_latest (policy : RetentionPolicyConfig) (inWindow : Document → Bool)
    (idx : Nat) (d : Document) (h : d.is_latest = true) :
    keepRow policy inWindow idx d = true := by
  rcases policy with ⟨pt, val⟩
  cases pt <;> simp [keepRow, h]

/-- C3: a citation whose chunk version differs from the current latest
version of the path is resolved with is_latest = false and latest_version
equal to the true latest; the Citation carries document_id, filename,
path, chunk_id, excerpt, used_version, latest_version and is_latest; and
CitationPreview renders such a citation with the used version badge, the
latest version shown, the Outdated marker and no Latest tag. -/
theorem c3_citation_freshness (document_id filename path : String) (chunk_id : Nat)
    (excerpt : String) (chunkV latestV : Nat)
    (hne : chunkV ≠ latestV) (hc : 1 ≤ chunkV) (hl : 1 ≤ latestV) :
    (resolveCitation document_id filename path chunk_id excerpt chunkV latestV).is_latest
      = false ∧
    (resolveCitation document_id filename path chunk_id excerpt chunkV latestV).latest_version
      = latestV ∧
    resolveCitation document_id filename path chunk_id excerpt chunkV latestV =
      Citation.mk document_id filename path chunk_id excerpt chunkV latestV
        (chunkV == latestV) ∧
    renderVersionInfo true
      (some (resolveCitation document_id filename path chunk_id excerpt chunkV latestV).used_version)
      (some (resolveCitation document_id filename path chunk_id excerpt chunkV latestV).latest_version)
      (some (resolveCitation document_id filename path chunk_id excerpt chunkV latestV).is_latest)
      = some ⟨chunkV, true, some latestV, false⟩ := by
  have hbeq : (chunkV == latestV) = false := by
    simp [hne]
  have hc0 : (chunkV != 0) = true := by
    simp
    omega
  have hl0 : (latestV != 0) = true := by
    simp
    omega
  refine ⟨by simp [resolveCitation, hbeq], rfl, rfl, ?_⟩
  simp [resolveCitation, renderVersionInfo, truthyNat, hbeq, hc0, hl0]

/-- Witness for C3 at used version 1, latest version 2, matching the
fixture of the repository test renders version information in
citations. -/
theorem c3_citation_freshness_witness :
    (resolveCitation "doc-1" "doc.md" "/tmp/doc.md" 1 "Example excerpt" 1 2).is_latest
      = false ∧
    (resolveCitation "doc-1" "doc.md" "/tmp/doc.md" 1 "Example excerpt" 1 2).latest_version
      = 2 ∧
    resolveCitation "doc-1" "doc.md" "/tmp/doc.md" 1 "Example excerpt" 1 2 =
      Citation.mk "doc-1" "doc.md" "/tmp/doc.md" 1 "Example excerpt" 1 2 (1 == 2) ∧
    renderVersionInfo true
      (some (resolveCitation "doc-1" "doc.md" "/tmp/doc.md" 1 "Example excerpt" 1 2).used_version)
      (some (resolveCitation "doc-1" "doc.md" "/tmp/doc.md" 1 "Example excerpt" 1 2).latest_version)
      (some (resolveCitation "doc-1" "doc.md" "/tmp/doc.md" 1 "Example excerpt" 1 2).is_latest)
      = some ⟨1, true, some 2, false⟩ :=
  c3_citation_freshness "doc-1" "doc.md" "/tmp/doc.md" 1 "Example excerpt" 1 2
    (by decide) (by decide) (by decide)

/-- C4: a fresh session defaults include_historical to false; with the
flag false every returned document has is_latest = true, so no superseded
result is ever returned; with the flag true a document is returned
exactly when it is in the corpus and matches the query, so in
particular a superseded (is_latest = false) matching document dHist is
returned in historical mode while default mode excludes it (each result
carries its version and is_latest label in its Document row). -/
theorem c4_default_excludes_historical (docs : List Document) (matchQ : Document → Bool)
    (d dHist : Document) (hhist : dHist.is_latest = false)
    (hin : dHist ∈ docs) (hmatch : matchQ dHist = true) :
    defaultSearchState.includeHistorical = false ∧
    (d ∈ searchNotesModel docs matchQ false → d.is_latest = true) ∧
    dHist ∈ searchNotesModel docs matchQ true ∧
    dHist ∉ searchNotesModel docs matchQ false ∧
    (d ∈ searchNotesModel docs matchQ true ↔ d ∈ docs ∧ matchQ d = true) := by
  refine ⟨rfl, ?_, ?_, ?_, ?_⟩
  · intro hmem
    have h := List.mem_filter.mp hmem
    have h2 := h.2
    simp at h2
    exact h2.1
  · apply List.mem_filter.mpr
    refine ⟨hin, ?_⟩
    simp [hmatch]
  · intro hmem
    have h := List.mem_filter.mp hmem
    have h2 := h.2
    simp at h2
    rw [h2.1] at hhist
    exact absurd hhist (by simp)
  · simp [searchNotesModel, List.mem_filter]

/-- Witness for C4 at the two-ingest ledger with a query matching
everything: the superseded version-1 row is searchable only in
historical mode. -/
theorem c4_default_excludes_historical_witness :
    defaultSearchState.includeHistorical = false ∧
    (rowV2 ∈ searchNotesModel [rowV2, rowV1Old] (fun _ => true) false →
      rowV2.is_latest = true) ∧
    rowV1Old ∈ searchNotesModel [rowV2, rowV1Old] (fun _ => true) true ∧
    rowV1Old ∉ searchNotesModel [rowV2, rowV1Old] (fun _ => true) false ∧
    (rowV2 ∈ searchNotesModel [rowV2, rowV1Old] (fun _ => true) true ↔
      rowV2 ∈ [rowV2, rowV1Old] ∧ (fun _ : Document => true) rowV2 = true) :=
  c4_default_excludes_historical [rowV2, rowV1Old] (fun _ => true) rowV2 rowV1Old
    (by decide) (by decide) (by decide)

/-- C5: purge_history with dry_run = true selects exactly the candidate
set of dry_run = false on the same store and reports the same counts; the
dry run leaves the store untouched; and the settings client issues the
same request for both invocations apart from the dry_run argument. -/
theorem c5_dry_run_byte_identical (policy : RetentionPolicyConfig)
    (inWindow : Document → Bool) (store : List (String × List Document)) :
    (purgeHistoryModel policy inWindow store true).candidates =
      (purgeHistoryModel policy inWindow store false).candidates ∧
    (purgeHistoryModel policy inWindow store true).versions_deleted =
      (purgeHistoryModel policy inWindow store false).versions_deleted ∧
    (purgeHistoryModel policy inWindow store true).space_freed_bytes =
      (purgeHistoryModel policy inWindow store false).space_freed_bytes ∧
    (purgeHistoryModel policy inWindow store true).store = store ∧
    purgeHistoryRequest true = { purgeHistoryRequest false with dry_run := true } ∧
    (purgeHistoryRequest true).tool = (purgeHistoryRequest false).tool :=
  ⟨rfl, rfl, rfl, rfl, rfl, rfl⟩

/-- C6: no candidate selected by any retention policy is the latest
version, and when the newest row of a ledger is the latest it survives
the purge, so the ledger stays nonempty — every document keeps at least
one retrievable version. -/
theorem c6_purge_never_deletes_latest (policy : RetentionPolicyConfig)
    (inWindow : Document → Bool) (h0 : Document) (t : List Document) (d : Document)
    (hlatest : h0.is_latest = true) :
    (d ∈ evaluateLedger policy inWindow (h0 :: t) → d.is_latest = false) ∧
    h0 ∈ keepLedger policy inWindow (h0 :: t) ∧
    keepLedger policy inWindow (h0 :: t) ≠ [] := by
  have hk : keepRow policy inWindow 0 h0 = true := keepRow_of_latest policy inWindow 0 h0 hlatest
  have hmemk : h0 ∈ keepLedger policy inWindow (h0 :: t) := by
    rw [keepLedger]
    apply List.mem_map.mpr
    refine ⟨(0, h0), ?_, rfl⟩
    apply List.mem_filter.mpr
    refine ⟨?_, hk⟩
    simp [List.enum_cons]
  refine ⟨?_, hmemk, List.ne_nil_of_mem hmemk⟩
  intro hmem
  rw [evaluateLedger] at hmem
  obtain ⟨p, hp, hpd⟩ := List.mem_map.mp hmem
  have hfil := (List.mem_filter.mp hp).2
  by_contra hdl
  have hdl2 : d.is_latest = true := by
    cases hb : d.is_latest
    · exact absurd hb hdl
    · rfl
  rw [hpd] at hfil
  rw [keepRow_of_latest policy inWindow p.1 d hdl2] at hfil
  simp at hfil

/-- Witness for C6 at scenario D: a three-version ledger under policy
last_n_versions with value 1; the oldest row is a candidate and the
latest row survives. -/
theorem c6_purge_never_deletes_latest_witness :
    (rowV1Old ∈ evaluateLedger ⟨PolicyType.lastNVersions, 1⟩ (fun _ => false)
        (rowV3 :: [rowV2Old, rowV1Old]) → rowV1Old.is_latest = false) ∧
    rowV3 ∈ keepLedger ⟨PolicyType.lastNVersions, 1⟩ (fun _ => false)
      (rowV3 :: [rowV2Old, rowV1Old]) ∧
    keepLedger ⟨PolicyType.lastNVersions, 1⟩ (fun _ => false)
      (rowV3 :: [rowV2Old, rowV1Old]) ≠ [] :=
  c6_purge_never_deletes_latest ⟨PolicyType.lastNVersions, 1⟩ (fun _ => false)
    rowV3 [rowV2Old, rowV1Old] rowV1Old (by decide)

/-- C7 counterexample: from the fresh-session default (policy all, value
0), selecting last_n_versions in the dropdown — one of the offered
options — leaves the numeric value at 0, so a policy to which the value
applies can carry a value below 1. -/
theorem c7_value_zero_after_type_switch :
    "last_n_versions" ∈ retentionPolicyOptionValues ∧
    (onRetentionPolicyTypeChange "last_n_versions" defaultRetentionPolicy).policy_type =
      "last_n_versions" ∧
    (onRetentionPolicyTypeChange "last_n_versions" defaultRetentionPolicy).value = 0 ∧
    ¬ (1 ≤ (onRetentionPolicyTypeChange "last_n_versions" defaultRetentionPolicy).value) :=
  ⟨by decide, rfl, rfl, by decide⟩

/-- C7 (amended): the policy type is always one of all, last_n_versions
and last_n_days when set through the dropdown; editing the value through
the number input never stores 0 (parseInt-or-1), though switching the
policy type leaves the previous value untouched, so a freshly switched
policy can still carry the default value 0; and the editor autosave
issues only save_note requests — never set_retention_policy or
purge_history — so purging is never implicit on write. -/
theorem c7_policy_options_and_autosave (v : String) (s : List Char)
    (rp : RetentionPolicyState) (currentPath : String) (dirty isImmediate : Bool)
    (content : String) (projectId : Option String) (req : SaveNoteRequest)
    (hv : v ∈ retentionPolicyOptionValues)
    (hreq : autosaveRequest (some currentPath) dirty isImmediate content projectId =
      some req) :
    (onRetentionPolicyTypeChange v rp).policy_type ∈ retentionPolicyOptionValues ∧
    (onRetentionPolicyTypeChange v rp).value = rp.value ∧
    (onRetentionValueChange s rp).value ≠ 0 ∧
    req.tool = "save_note" ∧
    req.tool ≠ "set_retention_policy" ∧
    req.tool ≠ "purge_history" := by
  have hr : req =
      { tool := "save_note"
      , path := currentPath
      , content := content
      , project_id := projectId } := by
    rw [autosaveRequest] at hreq
    split at hreq
    · exact absurd hreq (by simp)
    · exact (Option.some.inj hreq).symm
  subst hr
  refine ⟨hv, rfl, ?_, rfl, ?_, ?_⟩
  · cases hp : parseIntJS s with
    | none => simp [onRetentionValueChange, hp]
    | some n =>
      by_cases hz : n = 0
      · simp [onRetentionValueChange, hp, hz]
      · simp [onRetentionValueChange, hp, hz]
  · show "save_note" ≠ "set_retention_policy"
    decide
  · show "save_note" ≠ "purge_history"
    decide

/-- Witness for C7: switching to last_n_days, typing 5 into the value
input, and one forced autosave with a named path. -/
theorem c7_policy_options_and_autosave_witness :
    (onRetentionPolicyTypeChange "last_n_days" defaultRetentionPolicy).policy_type ∈
      retentionPolicyOptionValues ∧
    (onRetentionPolicyTypeChange "last_n_days" defaultRetentionPolicy).value =
      defaultRetentionPolicy.value ∧
    (onRetentionValueChange "5".data defaultRetentionPolicy).value ≠ 0 ∧
    autosaveReq.tool = "save_note" ∧
    autosaveReq.tool ≠ "set_retention_policy" ∧
    autosaveReq.tool ≠ "purge_history" :=
  c7_policy_options_and_autosave "last_n_days" "5".data defaultRetentionPolicy
    "/notes/a.md" true false "# A" none autosaveReq (by decide) (by decide)

/-- C8: in CitationPreview, for a search-result item the derived
latestVersion is the result document own version (it coincides with the
derived usedVersion), not the path current latest; only citation items
take the server latest_version. -/
theorem c8_search_result_latest_version_is_own (c : Option Citation) (r : SearchResult)
    (cit : Citation) (r2 : Option SearchResult) :
    derivedLatestVersion PreviewKind.searchResultKind c (some r) =
      some r.document.version ∧
    derivedLatestVersion PreviewKind.searchResultKind c (some r) =
      derivedUsedVersion PreviewKind.searchResultKind c (some r) ∧
    derivedLatestVersion PreviewKind.citationKind (some cit) r2 =
      some cit.latest_version :=
  ⟨rfl, rfl, rfl⟩

/-- C9: every search_notes request built by the search interfaces carries
limit 20 and offset 0, whatever the query, filters and
include_historical flag. -/
theorem c9_fixed_paging (query : List Char) (filters : SearchFilters) (ih : Bool)
    (r : SearchNotesRequest) (h : searchNotesRequest query filters ih = some r) :
    r.limit = 20 ∧ r.offset = 0 ∧ r.tool = "search_notes" := by
  rw [searchNotesRequest] at h
  split at h
  · exact absurd h (by simp)
  · cases Option.some.inj h
    exact ⟨rfl, rfl, rfl⟩

/-- Witness for C9 at the query docker with no filters. -/
theorem c9_fixed_paging_witness :
    dockerSearchRequest.limit = 20 ∧ dockerSearchRequest.offset = 0 ∧
    dockerSearchRequest.tool = "search_notes" :=
  c9_fixed_paging "docker".data {} false dockerSearchRequest (by decide)

/-- The attribute pass only outputs harmless attributes. -/
theorem cleanAttr_safe (a b : List Char × List Char) (h : cleanAttr a = some b) :
    attrSafe b = true := by
  rw [cleanAttr] at h
  split at h
  · exact absurd h (by simp)
  · rename_i hon
    split at h
    · rename_i hhref
      cases Option.some.inj h
      rw [attrSafe]
      have h1 : startsWithChars ((a.1).map Char.toLower) "on".data = false :=
        Bool.not_eq_true _ ▸ eq_false_of_ne_true hon
      rw [h1]
      have h2 : startsWithChars (trimChars "#".data) "javascript:".data = false := by decide
      rw [h2]
      simp
    · rename_i hhref
      cases Option.some.inj h
      rw [attrSafe]
      have h1 : startsWithChars ((a.1).map Char.toLower) "on".data = false :=
        Bool.not_eq_true _ ▸ eq_false_of_ne_true hon
      rw [h1]
      rcases Decidable.not_and_iff_or_not.mp hhref with h3 | h3
      · have : ((a.1).map Char.toLower == "href".data) = false := by
          simp [h3]
        rw [this]
        simp
      · have : startsWithChars (trimChars a.2) "javascript:".data = false := by
          simp at h3
          simp [h3]
        rw [this]
        simp

/-- Every attribute surviving the attribute pass is harmless. -/
theorem cleanAttrs_safe (attrs : List (List Char × List Char)) :
    (cleanAttrs attrs).all attrSafe = true := by
  rw [List.all_eq_true]
  intro x hx
  rw [cleanAttrs] at hx
  obtain ⟨a, _, ha⟩ := List.mem_filterMap.mp hx
  exact cleanAttr_safe a x ha

/-- nodesSafe distributes over append. -/
theorem nodesSafe_append (a b : List HNode) :
    nodesSafe (a ++ b) = (nodesSafe a && nodesSafe b) := by
  induction a with
  | nil => simp [nodesSafe]
  | cons n ns ih => simp [nodesSafe, ih, Bool.and_assoc]

mutual

/-- Sanitizing one node yields a harmless node list. -/
theorem sanitizeNode_safe (n : HNode) : nodesSafe (sanitizeNode n) = true := by
  cases n with
  | text s => simp [sanitizeNode, nodesSafe, nodeSafe]
  | elem tag attrs children =>
    rw [sanitizeNode]
    split
    · rfl
    · rename_i hban
      have hb : bannedTag tag = false := Bool.not_eq_true _ ▸ eq_false_of_ne_true hban
      rw [nodesSafe, nodesSafe, nodeSafe, hb, cleanAttrs_safe attrs,
        sanitizeNodes_safe children]
      rfl

/-- Sanitizing a node list yields a harmless node list. -/
theorem sanitizeNodes_safe (ns : List HNode) : nodesSafe (sanitizeNodes ns) = true := by
  cases ns with
  | nil => rfl
  | cons n ns1 =>
    rw [sanitizeNodes, nodesSafe_append, sanitizeNode_safe n, sanitizeNodes_safe ns1]
    rfl

end

/-- C10: the sanitized output of any parsed HTML contains no script
element, no style element, no attribute whose (lowercased) name begins
with on, and no href whose trimmed value begins with javascript:; an href
attribute carrying a javascript: value is replaced by the value #; and
the Markdown preview renders only output that has passed through
sanitize. -/
theorem c10_sanitize_output_safe (parseMarkdown : String → List HNode) (content : String)
    (ns : List HNode) (name value : List Char)
    (hname : name.map Char.toLower = "href".data)
    (hvalue : startsWithChars (trimChars value) "javascript:".data = true) :
    nodesSafe (sanitizeNodes ns) = true ∧
    nodesSafe (rendered parseMarkdown content) = true ∧
    cleanAttr (name, value) = some (name, "#".data) := by
  refine ⟨sanitizeNodes_safe ns, sanitizeNodes_safe (parseMarkdown content), ?_⟩
  rw [cleanAttr]
  have h1 : startsWithChars ((name, value).1.map Char.toLower) "on".data = false := by
    show startsWithChars (name.map Char.toLower) "on".data = false
    rw [hname]
    decide
  rw [h1]
  rw [if_neg (by simp)]
  rw [if_pos ⟨hname, hvalue⟩]

/-- Witness for C10: a script element plus an anchor with an event
handler and a javascript href, and a directly checked href replacement
with mixed case and leading whitespace. -/
theorem c10_sanitize_output_safe_witness :
    nodesSafe (sanitizeNodes sampleNodes) = true ∧
    nodesSafe (rendered (fun _ => sampleNodes) "ignored") = true ∧
    cleanAttr ("HREF".data, " javascript:alert(1)".data) =
      some ("HREF".data, "#".data) :=
  c10_sanitize_output_safe (fun _ => sampleNodes) "ignored" sampleNodes
    "HREF".data " javascript:alert(1)".data (by decide) (by decide)

end KnowledgeBase
